import Mathlib

/-!
Shallow embedding of the offline inventory reconciliation core of
InventoryScannerAndroid: the `InventoryListService` and `StorageService`
classes (src/src/services/InventoryListService.ts,
src/src/services/StorageService.ts) together with their data contracts
(src/src/types). The JS `Map<string, number>` ledger is modelled as an
insertion-ordered association list with `Map.prototype.set` semantics; the
`AsyncStorage` string store is modelled per logical key as a typed cell that
is absent, unreadable (a read of it throws, e.g. corrupt JSON), or holds a
value; a `setItem` that may throw is modelled by a Boolean success parameter
on each saving operation.
-/

/-- `ExpectedItem` from src/src/types (part_001): one line of an inventory
manifest. Quantities are JS numbers holding integers; modelled as `Int`. -/
structure ExpectedItem where
  articleNumber : String
  description : String
  expectedQuantity : Int
  imagePath : String
deriving DecidableEq, Repr

/-- `InventoryList` from src/src/types (part_001). -/
structure InventoryList where
  id : String
  name : String
  description : String
  items : List ExpectedItem
deriving DecidableEq, Repr

/-- `MissingItem` from src/src/types (part_001): `ExpectedItem` plus the
scanned count and the (possibly negative) missing count. -/
structure MissingItem where
  articleNumber : String
  description : String
  expectedQuantity : Int
  imagePath : String
  scannedQuantity : Int
  missing : Int
deriving DecidableEq, Repr

/-- The `ExpectedItem` part of a `MissingItem` (the fields copied by the
`...item` spread in `getMissingItems`). -/
def MissingItem.toExpected (m : MissingItem) : ExpectedItem :=
  { articleNumber := m.articleNumber, description := m.description,
    expectedQuantity := m.expectedQuantity, imagePath := m.imagePath }

/-- The scan ledger: a JS `Map<string, number>` as an insertion-ordered
association list with unique keys. -/
def Ledger : Type := List (String × Int)

instance : DecidableEq Ledger := by unfold Ledger; infer_instance

/-- `Map.prototype.get`: value of the first (unique) entry with the key. -/
def mapGet : Ledger → String → Option Int
  | [], _ => none
  | (k, v) :: m, k' => if k = k' then some v else mapGet m k'

/-- `this.scannedItems.get(barcode) || 0` — the JS missing-key default. -/
def mapGetD (m : Ledger) (k : String) : Int := (mapGet m k).getD 0

/-- `Map.prototype.set`: overwrite in place if the key exists, else append. -/
def mapSet : Ledger → String → Int → Ledger
  | [], k, v => [(k, v)]
  | (k', v') :: m, k, v =>
      if k' = k then (k, v) :: m else (k', v') :: mapSet m k v

/-- A JS string is a canonical array-index key (such keys are enumerated
first, in ascending numeric order, when a plain object is built by
`Object.fromEntries`). -/
def isArrayIndexKey (s : String) : Bool :=
  !s.isEmpty && s.all (fun c => c.isDigit) &&
    (s == "0" || s.front != '0') && (s.toNat?.getD 0 < 4294967295)

/-- Numeric value of an array-index key, for ordering. -/
def jsKeyNum (p : String × Int) : Nat := p.1.toNat?.getD 0

/-- `Object.entries(JSON.parse(JSON.stringify(Object.fromEntries(m))))`:
the entry sequence of the plain JS object built from a `Map`'s entries —
array-index keys first in ascending numeric order, then the remaining string
keys in insertion order.  This is the record shape the ledger takes through
`saveScannedItems`/`getScannedItems` persistence. -/
def jsRecord (m : Ledger) : Ledger :=
  (List.insertionSort (fun p q => jsKeyNum p ≤ jsKeyNum q)
      (m.filter (fun p => isArrayIndexKey p.1)))
    ++ m.filter (fun p => !isArrayIndexKey p.1)

/-- An `AsyncStorage` cell as seen through a typed read: missing (`null`),
unreadable (`getItem`/`JSON.parse` throws), or holding a parsed value. -/
inductive Cell (α : Type) where
  | absent
  | corrupt
  | val (a : α)
deriving DecidableEq

/-- The `AsyncStorage` state, one typed cell per logical key:
`inventory_lists`, `scanned_items_<listId>`, `missing_items_<listId>`,
`last_sync` (the `<listId>`-indexed families are total functions). -/
structure Store where
  inventoryLists : Cell (List InventoryList)
  scannedItems : String → Cell Ledger
  missingItems : String → Cell (List MissingItem)
  lastSync : Cell String

/-- `StorageService.getInventoryLists`: returns the stored lists, `[]` when
the record is absent, `[]` when the read throws (caught). -/
def StorageService.getInventoryLists (s : Store) : List InventoryList :=
  match s.inventoryLists with
  | .val l => l
  | _ => []

/-- `StorageService.saveInventoryLists`: JSON-serialize and `setItem`; a
`setItem` fault (`ok = false`) is rethrown. -/
def StorageService.saveInventoryLists (ok : Bool) (s : Store)
    (lists : List InventoryList) : Except Unit Store :=
  if ok then .ok { s with inventoryLists := .val lists } else .error ()

/-- `StorageService.saveScannedItems`: store
`JSON.stringify(Object.fromEntries(items))` under `scanned_items_<listId>`;
a `setItem` fault (`ok = false`) is rethrown and leaves the store as it
was. -/
def StorageService.saveScannedItems (ok : Bool) (s : Store) (listId : String)
    (items : Ledger) : Except Unit Store :=
  if ok then
    .ok { s with scannedItems :=
            fun k => if k = listId then .val (jsRecord items) else s.scannedItems k }
  else .error ()

/-- `StorageService.getScannedItems`: rebuild the `Map` from the stored
record; empty `Map` when the record is absent or the read throws (caught). -/
def StorageService.getScannedItems (s : Store) (listId : String) : Ledger :=
  match s.scannedItems listId with
  | .val m => m
  | _ => []

/-- `StorageService.saveMissingItems`: store the report under
`missing_items_<listId>`; a `setItem` fault is rethrown. -/
def StorageService.saveMissingItems (ok : Bool) (s : Store) (listId : String)
    (items : List MissingItem) : Except Unit Store :=
  if ok then
    .ok { s with missingItems :=
            fun k => if k = listId then .val items else s.missingItems k }
  else .error ()

/-- `StorageService.getMissingItems`: `[]` when absent or unreadable. -/
def StorageService.getMissingItemsStored (s : Store) (listId : String) :
    List MissingItem :=
  match s.missingItems listId with
  | .val l => l
  | _ => []

/-- `StorageService.updateLastSyncTimestamp`: store the current time as an
ISO string (passed in as `now`); a `setItem` fault is rethrown. -/
def StorageService.updateLastSyncTimestamp (ok : Bool) (now : String)
    (s : Store) : Except Unit Store :=
  if ok then .ok { s with lastSync := .val now } else .error ()

/-- `StorageService.getLastSyncTimestamp`: the stored string, `null` when
absent or unreadable (caught). -/
def StorageService.getLastSyncTimestamp (s : Store) : Option String :=
  match s.lastSync with
  | .val t => some t
  | _ => none

/-- The `InventoryListService` instance state (`currentList`,
`scannedItems`) together with the backing store. -/
structure SvcState where
  currentList : Option InventoryList
  scannedItems : Ledger
  store : Store

/-- `InventoryListService.loadInventoryLists`: reads local lists; the remote
branch is stubbed (TODO in the source), so the connectivity check does not
change the result. -/
def loadInventoryLists (connected : Bool) (st : SvcState) :
    List InventoryList :=
  let localLists := StorageService.getInventoryLists st.store
  if connected then localLists else localLists

/-- `InventoryListService.setCurrentList`: find the list by id
(`currentList := found || null`); only when found, reload the ledger for
that id from the store. -/
def setCurrentList (connected : Bool) (st : SvcState) (listId : String) :
    SvcState :=
  let lists := loadInventoryLists connected st
  match lists.find? (fun l => l.id == listId) with
  | some l =>
      { st with currentList := some l,
                scannedItems := StorageService.getScannedItems st.store listId }
  | none => { st with currentList := none }

/-- `InventoryListService.getCurrentList`. -/
def getCurrentList (st : SvcState) : Option InventoryList := st.currentList

/-- `InventoryListService.scanItem`: `false` when no list is active or the
barcode matches no item's `articleNumber`; otherwise increment the ledger
entry in memory, then persist the full ledger (`saveOk = false` models the
save throwing: the error propagates while the in-memory increment stays). -/
def scanItem (saveOk : Bool) (st : SvcState) (barcode : String) :
    Except Unit Bool × SvcState :=
  match st.currentList with
  | none => (.ok false, st)
  | some l =>
    match l.items.find? (fun item => item.articleNumber == barcode) with
    | none => (.ok false, st)
    | some _ =>
      let currentCount := mapGetD st.scannedItems barcode
      let st1 := { st with
        scannedItems := mapSet st.scannedItems barcode (currentCount + 1) }
      match StorageService.saveScannedItems saveOk st1.store l.id
          st1.scannedItems with
      | .ok s => (.ok true, { st1 with store := s })
      | .error e => (.error e, st1)

/-- The report body of `InventoryListService.getMissingItems`: one entry per
item of the list, spreading the item and deriving `scannedQuantity` and
`missing` from the ledger. -/
def computeMissing (items : List ExpectedItem) (ledger : Ledger) :
    List MissingItem :=
  items.map (fun item =>
    { articleNumber := item.articleNumber, description := item.description,
      expectedQuantity := item.expectedQuantity, imagePath := item.imagePath,
      scannedQuantity := mapGetD ledger item.articleNumber,
      missing := item.expectedQuantity - mapGetD ledger item.articleNumber })

/-- `InventoryListService.getMissingItems`: `[]` when no list is active;
otherwise compute the report, persist it (a save fault propagates), and
return it. -/
def getMissingItems (saveOk : Bool) (st : SvcState) :
    Except Unit (List MissingItem) × SvcState :=
  match st.currentList with
  | none => (.ok [], st)
  | some l =>
    let ms := computeMissing l.items st.scannedItems
    match StorageService.saveMissingItems saveOk st.store l.id ms with
    | .ok s => (.ok ms, { st with store := s })
    | .error _ => (.error (), st)

/-- `InventoryListService.syncWithServer`: `false` immediately when not
connected; `false` when no list is active; otherwise record the sync
timestamp (a fault in that save is caught, yielding `false`). -/
def syncWithServer (connected : Bool) (saveOk : Bool) (now : String)
    (st : SvcState) : Bool × SvcState :=
  if !connected then (false, st)
  else
    match st.currentList with
    | none => (false, st)
    | some _ =>
      match StorageService.updateLastSyncTimestamp saveOk now st.store with
      | .ok s => (true, { st with store := s })
      | .error _ => (false, st)

/-- `InventoryListService.clearCurrentListData`: no-op when no list is
active; otherwise clear the in-memory ledger, persist an empty ledger, then
persist an empty report (each save may throw and then propagates). -/
def clearCurrentListData (ok1 ok2 : Bool) (st : SvcState) :
    Except Unit Unit × SvcState :=
  match st.currentList with
  | none => (.ok (), st)
  | some l =>
    let st1 := { st with scannedItems := ([] : Ledger) }
    match StorageService.saveScannedItems ok1 st1.store l.id [] with
    | .error e => (.error e, st1)
    | .ok s1 =>
      match StorageService.saveMissingItems ok2 s1 l.id [] with
      | .error e => (.error e, { st1 with store := s1 })
      | .ok s2 => (.ok (), { st1 with store := s2 })

/-- Driver for claims about sequences of scans: run `scanItem` (with all
saves succeeding) over a list of barcodes, collecting each call's result. -/
def scanMany (bs : List String) (st : SvcState) :
    List (Except Unit Bool) × SvcState :=
  match bs with
  | [] => ([], st)
  | b :: rest =>
    let r := scanItem true st b
    let rs := scanMany rest r.2
    (r.1 :: rs.1, rs.2)

/-! ### Concrete sample data for witnesses -/

/-- The article-100 line of the spec scenario (expected 2). -/
def item100 : ExpectedItem :=
  { articleNumber := "100", description := "Widget",
    expectedQuantity := 2, imagePath := "img/100.png" }

/-- The article-200 line of the spec scenario (expected 1). -/
def item200 : ExpectedItem :=
  { articleNumber := "200", description := "Gadget",
    expectedQuantity := 1, imagePath := "img/200.png" }

/-- The spec scenario list `L1`. -/
def sampleList : InventoryList :=
  { id := "L1", name := "List 1", description := "demo",
    items := [item100, item200] }

/-- A second stored list, for list-switch scenarios. -/
def sampleListB : InventoryList :=
  { id := "L2", name := "List 2", description := "demo",
    items := [item200] }

/-- A store with nothing persisted yet. -/
def emptyStore : Store :=
  { inventoryLists := Cell.absent, scannedItems := fun _ => Cell.absent,
    missingItems := fun _ => Cell.absent, lastSync := Cell.absent }

/-- Service state: `L1` active, fresh ledger, empty store. -/
def freshState : SvcState :=
  { currentList := some sampleList, scannedItems := [], store := emptyStore }

/-- An item sharing article `"100"` with `item100` (expected 3). -/
def item100b : ExpectedItem :=
  { articleNumber := "100", description := "Widget B",
    expectedQuantity := 3, imagePath := "img/100b.png" }

/-- A list whose first and third items share `articleNumber = "100"`. -/
def sampleDupList : InventoryList :=
  { id := "L3", name := "Dup", description := "demo",
    items := [item100, item200, item100b] }

/-- Service state: the duplicate list active with article `"100"` scanned
once already. -/
def dupState : SvcState :=
  { currentList := some sampleDupList, scannedItems := [("100", 1)],
    store := emptyStore }

/-- A store holding lists `L1` and `L2` and a persisted ledger for `L1` (as
saved by `saveScannedItems`, hence in `jsRecord` shape). -/
def storeAB : Store :=
  { inventoryLists := Cell.val [sampleList, sampleListB],
    scannedItems := fun k =>
      if k = "L1" then Cell.val (jsRecord [("x9", 4), ("200", 1), ("100", 2)])
      else Cell.absent,
    missingItems := fun _ => Cell.absent, lastSync := Cell.absent }

/-- Service state over `storeAB` with nothing active yet. -/
def stateAB : SvcState :=
  { currentList := none, scannedItems := [], store := storeAB }


/-! ### Ledger key lemma helpers -/

/-- Keys of a ledger. -/
def ledgerKeys (m : Ledger) : List String := m.map Prod.fst

/-- A ledger with pairwise distinct keys (every JS `Map` is one). -/
def NodupKeys (m : Ledger) : Prop := (ledgerKeys m).Nodup

instance (m : Ledger) : Decidable (NodupKeys m) := by
  unfold NodupKeys; infer_instance

/-! ### Ledger lemmas -/

theorem mapGet_mapSet_self (m : Ledger) (k : String) (v : Int) :
    mapGet (mapSet m k v) k = some v := by
  induction m with
  | nil => simp [mapSet, mapGet]
  | cons p m ih =>
    by_cases h : p.1 = k
    · simp [mapSet, h, mapGet]
    · simp [mapSet, h, mapGet, ih]

theorem mapGet_mapSet_ne (m : Ledger) (k k' : String) (v : Int)
    (h : k' ≠ k) : mapGet (mapSet m k v) k' = mapGet m k' := by
  induction m with
  | nil => simp [mapSet, mapGet, Ne.symm h]
  | cons p m ih =>
    obtain ⟨a, b⟩ := p
    by_cases ha : a = k
    · subst ha
      simp [mapSet, mapGet, Ne.symm h]
    · by_cases hk : a = k'
      · simp [mapSet, ha, mapGet, hk, h]
      · simp [mapSet, ha, mapGet, hk, ih]

theorem mapGet_perm {m1 m2 : Ledger} (h : m1.Perm m2) (nd : NodupKeys m2) :
    ∀ k, mapGet m1 k = mapGet m2 k := by
  induction h with
  | nil => intro k; rfl
  | cons p _ ih =>
    intro k
    have nd' : NodupKeys _ := (List.nodup_cons.mp nd).2
    by_cases hp : p.1 = k <;> simp [mapGet, hp, ih nd' k]
  | swap p q l =>
    intro k
    have hqp : q.1 ≠ p.1 := by
      have := (List.nodup_cons.mp nd).1
      intro hcontra
      exact this (by simp [ledgerKeys, hcontra])
    by_cases hq : q.1 = k
    · have hp : p.1 ≠ k := fun hh => hqp (hq.trans hh.symm)
      simp [mapGet, hq, hp]
    · by_cases hp : p.1 = k <;> simp [mapGet, hq, hp]
  | trans h1 h2 ih1 ih2 =>
    intro k
    rename_i l1 l2 l3
    have ndmid : NodupKeys l2 := by
      unfold NodupKeys ledgerKeys
      exact (h2.map Prod.fst).nodup_iff.mpr nd
    exact (ih1 ndmid k).trans (ih2 nd k)

theorem jsRecord_perm (m : Ledger) : (jsRecord m).Perm m := by
  unfold jsRecord
  exact ((List.perm_insertionSort _ _).append_right _).trans
    (List.filter_append_perm _ m)

/-- The persistence round trip preserves the ledger as a mapping: reading
any key after `Object.fromEntries`/JSON/`Object.entries` gives the value the
`Map` held. -/
theorem mapGet_jsRecord (m : Ledger) (nd : NodupKeys m) (k : String) :
    mapGet (jsRecord m) k = mapGet m k :=
  mapGet_perm (jsRecord_perm m) nd k

/-! ### scanItem behaviour lemmas -/

theorem scanItem_no_list (ok : Bool) (st : SvcState) (b : String)
    (h : st.currentList = none) : scanItem ok st b = (Except.ok false, st) := by
  simp [scanItem, h]

theorem scanItem_no_match (ok : Bool) (st : SvcState) (l : InventoryList)
    (b : String) (hcur : st.currentList = some l)
    (hf : l.items.find? (fun item => item.articleNumber == b) = none) :
    scanItem ok st b = (Except.ok false, st) := by
  simp [scanItem, hcur, hf]

theorem scanItem_match_fst (st : SvcState) (l : InventoryList) (b : String)
    (it : ExpectedItem) (hcur : st.currentList = some l)
    (hf : l.items.find? (fun item => item.articleNumber == b) = some it) :
    (scanItem true st b).1 = Except.ok true := by
  simp [scanItem, hcur, hf, StorageService.saveScannedItems]

theorem scanItem_match_ledger (st : SvcState) (l : InventoryList) (b : String)
    (it : ExpectedItem) (hcur : st.currentList = some l)
    (hf : l.items.find? (fun item => item.articleNumber == b) = some it) :
    (scanItem true st b).2.scannedItems
      = mapSet st.scannedItems b (mapGetD st.scannedItems b + 1) := by
  simp [scanItem, hcur, hf, StorageService.saveScannedItems]

theorem scanItem_currentList (ok : Bool) (st : SvcState) (b : String) :
    (scanItem ok st b).2.currentList = st.currentList := by
  cases hcur : st.currentList with
  | none => simp [scanItem, hcur]
  | some l =>
    cases hf : l.items.find? (fun item => item.articleNumber == b) with
    | none => simp [scanItem, hcur, hf]
    | some it =>
      cases ok <;> simp [scanItem, hcur, hf, StorageService.saveScannedItems]

theorem scanMany_spec (l : InventoryList) (a : String)
    (ha : (l.items.find? (fun item => item.articleNumber == a)).isSome) :
    ∀ (bs : List String) (st : SvcState), st.currentList = some l →
      (scanMany bs st).2.currentList = some l ∧
      mapGetD (scanMany bs st).2.scannedItems a
        = mapGetD st.scannedItems a + (bs.count a : Int) ∧
      ∀ pr ∈ bs.zip (scanMany bs st).1, pr.1 = a → pr.2 = Except.ok true := by
  intro bs
  induction bs with
  | nil =>
    intro st hcur
    refine ⟨hcur, by simp [scanMany], by simp [List.zip]⟩
  | cons b bs ih =>
    intro st hcur
    cases hf : l.items.find? (fun item => item.articleNumber == b) with
    | none =>
      have hba : b ≠ a := by
        intro hba
        subst hba
        rw [hf] at ha
        simp at ha
      have hstep : scanItem true st b = (Except.ok false, st) :=
        scanItem_no_match true st l b hcur hf
      obtain ⟨ihc, ihm, ihr⟩ := ih st hcur
      refine ⟨?_, ?_, ?_⟩
      · simpa [scanMany, hstep] using ihc
      · have hcount : (b :: bs).count a = bs.count a := by
          simp [List.count_cons, hba]
        simp only [scanMany, hstep]
        rw [hcount]
        exact ihm
      · intro pr hpr
        have hz : (b :: bs).zip ((scanMany (b :: bs) st).1)
            = (b, Except.ok false) :: bs.zip ((scanMany bs st).1) := by
          simp [scanMany, hstep]
        rw [hz] at hpr
        rcases List.mem_cons.mp hpr with hh | hh
        · intro hpra
          rw [hh] at hpra
          exact absurd hpra hba
        · exact ihr pr hh
    | some it =>
      have h1 := scanItem_match_fst st l b it hcur hf
      have h2 := scanItem_match_ledger st l b it hcur hf
      have h3 : (scanItem true st b).2.currentList = some l := by
        rw [scanItem_currentList]
        exact hcur
      obtain ⟨ihc, ihm, ihr⟩ := ih (scanItem true st b).2 h3
      refine ⟨?_, ?_, ?_⟩
      · simpa [scanMany] using ihc
      · have hmain : mapGetD (scanMany bs (scanItem true st b).2).2.scannedItems a
            = mapGetD (mapSet st.scannedItems b (mapGetD st.scannedItems b + 1)) a
              + (bs.count a : Int) := by
          rw [← h2]
          exact ihm
        by_cases hba : b = a
        · subst hba
          have hset : mapGetD
              (mapSet st.scannedItems b (mapGetD st.scannedItems b + 1)) b
              = mapGetD st.scannedItems b + 1 := by
            simp [mapGetD, mapGet_mapSet_self]
          rw [hset] at hmain
          have hcount : ((b :: bs).count b : Int) = (bs.count b : Int) + 1 := by
            simp [List.count_cons]
          show mapGetD (scanMany bs (scanItem true st b).2).2.scannedItems b
              = mapGetD st.scannedItems b + ((b :: bs).count b : Int)
          rw [hmain, hcount]
          ring
        · have hset : mapGetD
              (mapSet st.scannedItems b (mapGetD st.scannedItems b + 1)) a
              = mapGetD st.scannedItems a := by
            simp [mapGetD, mapGet_mapSet_ne st.scannedItems b a _ (Ne.symm hba)]
          rw [hset] at hmain
          have hcount : (b :: bs).count a = bs.count a := by
            simp [List.count_cons, hba]
          show mapGetD (scanMany bs (scanItem true st b).2).2.scannedItems a
              = mapGetD st.scannedItems a + ((b :: bs).count a : Int)
          rw [hmain, hcount]
      · intro pr hpr
        have hz : (b :: bs).zip ((scanMany (b :: bs) st).1)
            = (b, (scanItem true st b).1)
              :: bs.zip ((scanMany bs (scanItem true st b).2).1) := rfl
        rw [hz] at hpr
        rcases List.mem_cons.mp hpr with hh | hh
        · intro _
          rw [hh]
          exact h1
        · exact ihr pr hh


/-! ### Claims C1, C2, C9 -/

/-- Claim C1: with an active list, after any scan sequence started on a
fresh ledger entry, the ledger count for an article `a` that matches an item
of the active list equals the number of `scan(a)` calls in the sequence (no
upper bound), and each such call returned `true` ("recorded"); a scan of an
article matching no item of the active list, or made with no active list,
returns `false` ("not found") and changes nothing. -/
theorem C1_scan_sequence_counts (l : InventoryList) (a : String)
    (bs : List String) (st0 : SvcState)
    (hcur : st0.currentList = some l)
    (hled : mapGet st0.scannedItems a = none) :
    ((∃ it ∈ l.items, it.articleNumber = a) →
      mapGetD (scanMany bs st0).2.scannedItems a = (bs.count a : Int) ∧
      ∀ pr ∈ bs.zip (scanMany bs st0).1, pr.1 = a → pr.2 = Except.ok true) ∧
    ((∀ it ∈ l.items, it.articleNumber ≠ a) →
      scanItem true st0 a = (Except.ok false, st0)) ∧
    (∀ st : SvcState, st.currentList = none →
      scanItem true st a = (Except.ok false, st)) := by
  refine ⟨?_, ?_, ?_⟩
  · intro hmem
    have ha : (l.items.find? (fun item => item.articleNumber == a)).isSome := by
      rw [List.find?_isSome]
      obtain ⟨it, hit, heq⟩ := hmem
      exact ⟨it, hit, by simp [heq]⟩
    obtain ⟨_, hm, hr⟩ := scanMany_spec l a ha bs st0 hcur
    refine ⟨?_, hr⟩
    rw [hm]
    simp [mapGetD, hled]
  · intro hno
    have hf : l.items.find? (fun item => item.articleNumber == a) = none := by
      rw [List.find?_eq_none]
      intro it hit
      simp [hno it hit]
    exact scanItem_no_match true st0 l a hcur hf
  · intro st hst
    exact scanItem_no_list true st a hst

/-- Witness for C1 at the spec scenario: list `L1` active, scans
`["100", "999", "100"]` from fresh state give ledger count 2 for `"100"`,
and a scan of the unknown `"999"` leaves the state unchanged. -/
theorem C1_scan_sequence_counts_witness :
    mapGetD (scanMany ["100", "999", "100"] freshState).2.scannedItems "100"
      = 2 ∧
    scanItem true freshState "999" = (Except.ok false, freshState) := by
  have h := C1_scan_sequence_counts sampleList "100" ["100", "999", "100"]
    freshState rfl rfl
  have h999 := C1_scan_sequence_counts sampleList "999" ["100", "999", "100"]
    freshState rfl rfl
  constructor
  · have hmem : ∃ it ∈ sampleList.items, it.articleNumber = "100" :=
      ⟨item100, by simp [sampleList], rfl⟩
    rw [(h.1 hmem).1]
    decide
  · exact h999.2.1 (by decide)

/-- Claim C2: each report entry carries `scannedQuantity` equal to the
ledger value of its article (0 when absent) and
`missing = expectedQuantity − scannedQuantity` computed exactly, not
clamped, hence negative exactly when over-scanned. -/
theorem C2_report_entry_values (l : InventoryList) (st : SvcState) (i : Nat)
    (it : ExpectedItem) (hcur : st.currentList = some l)
    (hi : l.items[i]? = some it) :
    (getMissingItems true st).1
      = Except.ok (computeMissing l.items st.scannedItems) ∧
    (computeMissing l.items st.scannedItems)[i]?
      = some { articleNumber := it.articleNumber,
               description := it.description,
               expectedQuantity := it.expectedQuantity,
               imagePath := it.imagePath,
               scannedQuantity := mapGetD st.scannedItems it.articleNumber,
               missing := it.expectedQuantity
                 - mapGetD st.scannedItems it.articleNumber } ∧
    (it.expectedQuantity < mapGetD st.scannedItems it.articleNumber →
      it.expectedQuantity - mapGetD st.scannedItems it.articleNumber < 0) := by
  refine ⟨?_, ?_, ?_⟩
  · simp [getMissingItems, hcur, StorageService.saveMissingItems]
  · simp [computeMissing, hi]
  · omega

/-- Witness for C2: article `"100"` over-scanned to 5 against expected 2
gives a report entry with `scannedQuantity = 5` and `missing = -3`. -/
theorem C2_report_entry_values_witness :
    (computeMissing sampleList.items [("100", 5)])[0]?
      = some { articleNumber := "100", description := "Widget",
               expectedQuantity := 2, imagePath := "img/100.png",
               scannedQuantity := 5, missing := -3 } := by
  have h := C2_report_entry_values sampleList
    { currentList := some sampleList, scannedItems := [("100", 5)],
      store := emptyStore } 0 item100 rfl rfl
  have h2 := h.2.1
  rw [h2]
  decide

/-- Claim C9: with an active list, the report has exactly one entry per
`ExpectedItem`, in the order of the list's items, each entry extending its
item — so entries whose `missing` is zero or negative are present too. -/
theorem C9_report_one_entry_per_item (l : InventoryList) (st : SvcState)
    (hcur : st.currentList = some l) :
    (getMissingItems true st).1
      = Except.ok (computeMissing l.items st.scannedItems) ∧
    (computeMissing l.items st.scannedItems).length = l.items.length ∧
    (computeMissing l.items st.scannedItems).map MissingItem.toExpected
      = l.items := by
  refine ⟨?_, ?_, ?_⟩
  · simp [getMissingItems, hcur, StorageService.saveMissingItems]
  · simp [computeMissing]
  · simp only [computeMissing, List.map_map]
    exact List.map_id l.items

/-- Witness for C9: a fully scanned list still yields one entry per item. -/
theorem C9_report_one_entry_per_item_witness :
    (computeMissing sampleList.items [("100", 2), ("200", 1)]).map
        MissingItem.toExpected
      = sampleList.items ∧
    (computeMissing sampleList.items [("100", 2), ("200", 1)]).length = 2 := by
  have h := C9_report_one_entry_per_item sampleList
    { currentList := some sampleList,
      scannedItems := [("100", 2), ("200", 1)], store := emptyStore } rfl
  exact ⟨h.2.2, h.2.1⟩

/-! ### Claim C10 -/

/-- `Array.prototype.find` returns the first element satisfying the
predicate: a general first-match characterisation of `List.find?`. -/
theorem find?_first_match {α : Type} (p : α → Bool) :
    ∀ (l : List α) (i : Nat) (x : α), l[i]? = some x → p x = true →
      ∃ k y, k ≤ i ∧ l[k]? = some y ∧ p y = true ∧
        (∀ m z, m < k → l[m]? = some z → p z = false) ∧
        l.find? p = some y := by
  intro l
  induction l with
  | nil =>
    intro i x hx
    simp at hx
  | cons a l ih =>
    intro i x hx hp
    by_cases hpa : p a = true
    · refine ⟨0, a, Nat.zero_le i, by simp, hpa, ?_, by simp [hpa]⟩
      intro m z hm
      omega
    · have hpa' : p a = false := by
        rw [Bool.not_eq_true] at hpa
        exact hpa
      cases i with
      | zero =>
        simp at hx
        rw [hx] at hpa'
        rw [hp] at hpa'
        contradiction
      | succ j =>
        have hx' : l[j]? = some x := by simpa using hx
        obtain ⟨k, y, hk, hky, hpy, hmin, hfind⟩ := ih j x hx' hp
        refine ⟨k + 1, y, by omega, by simpa using hky, hpy, ?_, ?_⟩
        · intro m z hm hz
          cases m with
          | zero =>
            simp at hz
            rw [hz] at hpa'
            exact hpa'
          | succ m' =>
            exact hmin m' z (by omega) (by simpa using hz)
        · rw [List.find?_cons_of_neg l hpa]
          exact hfind

/-- Claim C10: when two items of the active list share `articleNumber = a`,
a scan of `a` matches the first such item in list order, increments the one
shared ledger entry (all other keys untouched), and the report carries the
same shared `scannedQuantity` — and the derived `missing` — on both
entries. -/
theorem C10_shared_article_number (l : InventoryList) (st : SvcState)
    (a : String) (i j : Nat) (it1 it2 : ExpectedItem)
    (hcur : st.currentList = some l) (_hij : i < j)
    (hi : l.items[i]? = some it1) (hj : l.items[j]? = some it2)
    (ha1 : it1.articleNumber = a) (ha2 : it2.articleNumber = a) :
    (∃ k it0, k ≤ i ∧ l.items[k]? = some it0 ∧ it0.articleNumber = a ∧
      (∀ m itm, m < k → l.items[m]? = some itm → itm.articleNumber ≠ a) ∧
      l.items.find? (fun item => item.articleNumber == a) = some it0) ∧
    ((scanItem true st a).1 = Except.ok true ∧
      mapGetD (scanItem true st a).2.scannedItems a
        = mapGetD st.scannedItems a + 1 ∧
      ∀ k, k ≠ a → mapGet (scanItem true st a).2.scannedItems k
        = mapGet st.scannedItems k) ∧
    ((computeMissing l.items st.scannedItems)[i]?.map
        MissingItem.scannedQuantity = some (mapGetD st.scannedItems a) ∧
      (computeMissing l.items st.scannedItems)[j]?.map
        MissingItem.scannedQuantity = some (mapGetD st.scannedItems a) ∧
      (computeMissing l.items st.scannedItems)[i]?.map MissingItem.missing
        = some (it1.expectedQuantity - mapGetD st.scannedItems a) ∧
      (computeMissing l.items st.scannedItems)[j]?.map MissingItem.missing
        = some (it2.expectedQuantity - mapGetD st.scannedItems a)) := by
  obtain ⟨k, y, hk, hky, hpy, hmin, hfind⟩ :=
    find?_first_match (fun item => item.articleNumber == a) l.items i it1 hi
      (by simp [ha1])
  refine ⟨⟨k, y, hk, hky, by simpa using hpy, ?_, hfind⟩, ⟨?_, ?_, ?_⟩, ?_⟩
  · intro m itm hm hz
    have := hmin m itm hm hz
    simpa using this
  · exact scanItem_match_fst st l a y hcur hfind
  · rw [scanItem_match_ledger st l a y hcur hfind]
    simp [mapGetD, mapGet_mapSet_self]
  · intro k' hk'
    rw [scanItem_match_ledger st l a y hcur hfind]
    exact mapGet_mapSet_ne st.scannedItems a k' _ hk'
  · refine ⟨?_, ?_, ?_, ?_⟩ <;> simp [computeMissing, hi, hj, ha1, ha2]

/-- Witness for C10: a list whose first and third items share article
`"100"`; the scan matches the first one, and both report entries show the
shared scanned count. -/
theorem C10_shared_article_number_witness :
    (sampleDupList.items.find? (fun item => item.articleNumber == "100")
      = some item100) ∧
    mapGetD (scanItem true dupState "100").2.scannedItems "100" = 2 ∧
    (computeMissing sampleDupList.items dupState.scannedItems)[0]?.map
      MissingItem.scannedQuantity = some 1 ∧
    (computeMissing sampleDupList.items dupState.scannedItems)[2]?.map
      MissingItem.scannedQuantity = some 1 := by
  have h := C10_shared_article_number sampleDupList dupState "100" 0 2
    item100 item100b rfl (by omega) rfl rfl rfl rfl
  obtain ⟨⟨k, it0, hk, hky, hart, hmin, hfind⟩, ⟨hfst, hinc, hother⟩,
    hri, hrj, hmi, hmj⟩ := h
  refine ⟨?_, ?_, ?_, ?_⟩
  · have hk0 : k = 0 := by omega
    rw [hk0] at hky
    have : it0 = item100 := by
      have : some it0 = some item100 := by
        rw [← hky]
        decide
      exact (Option.some.injEq _ _).mp this.symm |>.symm
    rw [← this]
    exact hfind
  · rw [hinc]
    decide
  · rw [hri]
    decide
  · rw [hrj]
    decide

/-! ### Claim C3 -/

/-- Claim C3 is false as stated: when the ledger save fails during a
matching scan, the error is surfaced, but the in-memory ledger is NOT
unchanged — `scanItem` increments the `Map` before attempting the save and
never rolls back.  Concretely, from a fresh state a failing scan of `"100"`
propagates the error while the in-memory count for `"100"` is already 1. -/
theorem C3_state_unchanged_counterexample :
    (scanItem false freshState "100").1 = Except.error () ∧
    mapGetD freshState.scannedItems "100" = 0 ∧
    mapGetD (scanItem false freshState "100").2.scannedItems "100" = 1 ∧
    (scanItem false freshState "100").2.scannedItems
      ≠ freshState.scannedItems := by
  refine ⟨rfl, rfl, rfl, by decide⟩

/-- Claim C3 (amended): when persisting the ledger fails with a
`StorageFailure` during `scan(a)` for a matching article, the failure is
surfaced to the caller and the persisted store and current list are
unchanged, but the in-memory ledger count for `a` has already been
incremented by 1 (the increment is applied before the save attempt and is
not rolled back). -/
theorem C3_save_failure_behaviour (l : InventoryList) (st : SvcState)
    (a : String) (it : ExpectedItem) (hcur : st.currentList = some l)
    (hf : l.items.find? (fun item => item.articleNumber == a) = some it) :
    (scanItem false st a).1 = Except.error () ∧
    (scanItem false st a).2.store = st.store ∧
    (scanItem false st a).2.currentList = st.currentList ∧
    mapGetD (scanItem false st a).2.scannedItems a
      = mapGetD st.scannedItems a + 1 := by
  refine ⟨?_, ?_, ?_, ?_⟩ <;>
    simp [scanItem, hcur, hf, StorageService.saveScannedItems, mapGetD,
      mapGet_mapSet_self]

/-- Witness for the amended C3 at the concrete failing scan. -/
theorem C3_save_failure_behaviour_witness :
    (scanItem false freshState "100").1 = Except.error () ∧
    (scanItem false freshState "100").2.store = freshState.store ∧
    mapGetD (scanItem false freshState "100").2.scannedItems "100"
      = mapGetD freshState.scannedItems "100" + 1 := by
  have h := C3_save_failure_behaviour sampleList freshState "100" item100
    rfl rfl
  exact ⟨h.1, h.2.1, h.2.2.2⟩

/-! ### Claim C4 -/

/-- Claim C4: with lists `A` and `B` both stored and a persisted ledger for
`A` (in the record shape every save produces), the switch sequence
`setCurrentList(A); setCurrentList(B); setCurrentList(A)` restores exactly
the state the first activation of `A` produced, and the restored in-memory
ledger agrees, on every string key, with the `Map` `L` that was saved: the
`Map` → plain-record → `Map` persistence round trip is lossless as a
mapping for arbitrary string article keys. -/
theorem C4_switch_and_back_round_trip (c : Bool) (st0 : SvcState)
    (A B : InventoryList) (aid bid : String) (L : Ledger)
    (hA : (StorageService.getInventoryLists st0.store).find?
        (fun l => l.id == aid) = some A)
    (hB : (StorageService.getInventoryLists st0.store).find?
        (fun l => l.id == bid) = some B)
    (hL : st0.store.scannedItems aid = Cell.val (jsRecord L))
    (hnd : NodupKeys L) :
    setCurrentList c (setCurrentList c (setCurrentList c st0 aid) bid) aid
      = setCurrentList c st0 aid ∧
    ∀ k, mapGet (setCurrentList c st0 aid).scannedItems k = mapGet L k := by
  constructor
  · simp [setCurrentList, loadInventoryLists, hA, hB]
  · intro k
    have hled : (setCurrentList c st0 aid).scannedItems = jsRecord L := by
      simp [setCurrentList, loadInventoryLists, hA,
        StorageService.getScannedItems, hL]
    rw [hled]
    exact mapGet_jsRecord L hnd k

/-- Witness for C4: lists `L1`, `L2` in `storeAB`, ledger
`[("x9", 4), ("200", 1), ("100", 2)]` (mixing array-index keys, which a JS
object reorders, with a plain string key); the round trip preserves every
lookup. -/
theorem C4_switch_and_back_round_trip_witness :
    setCurrentList true
        (setCurrentList true (setCurrentList true stateAB "L1") "L2") "L1"
      = setCurrentList true stateAB "L1" ∧
    mapGet (setCurrentList true stateAB "L1").scannedItems "100" = some 2 ∧
    mapGet (setCurrentList true stateAB "L1").scannedItems "x9" = some 4 := by
  have h := C4_switch_and_back_round_trip true stateAB sampleList sampleListB
    "L1" "L2" [("x9", 4), ("200", 1), ("100", 2)] rfl rfl rfl (by decide)
  refine ⟨h.1, ?_, ?_⟩
  · rw [h.2 "100"]
    decide
  · rw [h.2 "x9"]
    decide

/-! ### Claim C5 -/

/-- Claim C5: with an active list, `clearCurrentListData` (saves
succeeding) empties the in-memory ledger, persists an empty ledger and an
empty report, and an immediately following `getMissingItems` reports
`scannedQuantity = 0` and `missing = expectedQuantity` for every item of the
active list; with no active list it is a no-op. -/
theorem C5_clear_resets (l : InventoryList) (st : SvcState) :
    (st.currentList = some l →
      (clearCurrentListData true true st).1 = Except.ok () ∧
      (clearCurrentListData true true st).2.currentList = some l ∧
      (clearCurrentListData true true st).2.scannedItems = [] ∧
      StorageService.getScannedItems
        (clearCurrentListData true true st).2.store l.id = [] ∧
      StorageService.getMissingItemsStored
        (clearCurrentListData true true st).2.store l.id = [] ∧
      (getMissingItems true (clearCurrentListData true true st).2).1
        = Except.ok (l.items.map (fun item =>
            { articleNumber := item.articleNumber,
              description := item.description,
              expectedQuantity := item.expectedQuantity,
              imagePath := item.imagePath,
              scannedQuantity := 0,
              missing := item.expectedQuantity }))) ∧
    (st.currentList = none →
      ∀ ok1 ok2, clearCurrentListData ok1 ok2 st = (Except.ok (), st)) := by
  constructor
  · intro hcur
    refine ⟨?_, ?_, ?_, ?_, ?_, ?_⟩
    · simp [clearCurrentListData, hcur, StorageService.saveScannedItems,
        StorageService.saveMissingItems]
    · simp [clearCurrentListData, hcur, StorageService.saveScannedItems,
        StorageService.saveMissingItems]
    · simp [clearCurrentListData, hcur, StorageService.saveScannedItems,
        StorageService.saveMissingItems]
    · simp [clearCurrentListData, hcur, StorageService.saveScannedItems,
        StorageService.saveMissingItems, StorageService.getScannedItems,
        jsRecord]
    · simp [clearCurrentListData, hcur, StorageService.saveScannedItems,
        StorageService.saveMissingItems, StorageService.getMissingItemsStored]
    · simp [clearCurrentListData, hcur, StorageService.saveScannedItems,
        StorageService.saveMissingItems, getMissingItems, computeMissing,
        mapGetD, mapGet]
  · intro hcur ok1 ok2
    simp [clearCurrentListData, hcur]

/-- Witness for C5: clearing from a scanned state of `L1`, then reporting,
yields `missing = expectedQuantity` entries; clearing with no active list
changes nothing. -/
theorem C5_clear_resets_witness :
    (getMissingItems true
        (clearCurrentListData true true
          { currentList := some sampleList,
            scannedItems := [("100", 2), ("200", 1)],
            store := emptyStore }).2).1
      = Except.ok (sampleList.items.map (fun item =>
          { articleNumber := item.articleNumber,
            description := item.description,
            expectedQuantity := item.expectedQuantity,
            imagePath := item.imagePath,
            scannedQuantity := 0,
            missing := item.expectedQuantity })) ∧
    clearCurrentListData true true stateAB = (Except.ok (), stateAB) := by
  constructor
  · exact (C5_clear_resets sampleList
      { currentList := some sampleList,
        scannedItems := [("100", 2), ("200", 1)],
        store := emptyStore }).1 rfl |>.2.2.2.2.2
  · exact (C5_clear_resets sampleList stateAB).2 rfl true true

/-! ### Claim C6 -/

/-- Claim C6: `setCurrentList` with an id matching no stored list completes
normally (it is total — no fatal failure) and transitions to no-active-list,
the condition a caller observes through `getCurrentList` returning `none`;
with a matching id it loads the ledger for that id from the store — the
empty ledger when nothing is persisted — and calling it again with the same
id reloads the same ledger from the store (the call is idempotent). -/
theorem C6_set_current_list (c : Bool) (st : SvcState) (listId : String) :
    ((∀ l ∈ StorageService.getInventoryLists st.store, l.id ≠ listId) →
      setCurrentList c st listId = { st with currentList := none } ∧
      getCurrentList (setCurrentList c st listId) = none) ∧
    (∀ A, (StorageService.getInventoryLists st.store).find?
        (fun l => l.id == listId) = some A →
      setCurrentList c st listId
        = { st with
              currentList := some A,
              scannedItems :=
                StorageService.getScannedItems st.store listId } ∧
      (st.store.scannedItems listId = Cell.absent →
        (setCurrentList c st listId).scannedItems = []) ∧
      setCurrentList c (setCurrentList c st listId) listId
        = setCurrentList c st listId) := by
  constructor
  · intro hno
    have hf : (StorageService.getInventoryLists st.store).find?
        (fun l => l.id == listId) = none := by
      rw [List.find?_eq_none]
      intro l hl
      simp [hno l hl]
    exact ⟨by simp [setCurrentList, loadInventoryLists, hf],
      by simp [setCurrentList, loadInventoryLists, hf, getCurrentList]⟩
  · intro A hf
    refine ⟨?_, ?_, ?_⟩
    · simp [setCurrentList, loadInventoryLists, hf]
    · intro habs
      simp [setCurrentList, loadInventoryLists, hf,
        StorageService.getScannedItems, habs]
    · simp [setCurrentList, loadInventoryLists, hf]

/-- Witness for C6: over `storeAB`, the id `"zzz"` matches nothing and
leaves no active list, while `"L1"` activates `sampleList` with its
persisted ledger, idempotently. -/
theorem C6_set_current_list_witness :
    getCurrentList (setCurrentList true stateAB "zzz") = none ∧
    setCurrentList true (setCurrentList true stateAB "L1") "L1"
      = setCurrentList true stateAB "L1" := by
  have hz := (C6_set_current_list true stateAB "zzz").1 (by decide)
  have hl := (C6_set_current_list true stateAB "L1").2 sampleList rfl
  exact ⟨hz.2, hl.2.2⟩

/-! ### Claim C7 -/

/-- Claim C7: a `sync()` issued while the connectivity probe reports not
connected returns `false` (the `NotConnected` outcome) immediately, with the
whole state — in particular the persisted last-sync timestamp — unchanged. -/
theorem C7_sync_not_connected (ok : Bool) (now : String) (st : SvcState) :
    syncWithServer false ok now st = (false, st) ∧
    StorageService.getLastSyncTimestamp
        (syncWithServer false ok now st).2.store
      = StorageService.getLastSyncTimestamp st.store := by
  constructor <;> simp [syncWithServer]

/-! ### Claim C8 -/

/-- Claim C8: both repository read paths degrade to their empty default —
`getInventoryLists` yields `[]` and `getScannedItems` yields the empty
ledger whenever the backing record is absent or unreadable; being total
functions, they propagate no read fault. -/
theorem C8_reads_degrade (s : Store) (listId : String) :
    ((s.inventoryLists = Cell.absent ∨ s.inventoryLists = Cell.corrupt) →
      StorageService.getInventoryLists s = []) ∧
    ((s.scannedItems listId = Cell.absent ∨
        s.scannedItems listId = Cell.corrupt) →
      StorageService.getScannedItems s listId = []) := by
  constructor
  · rintro (h | h) <;> simp [StorageService.getInventoryLists, h]
  · rintro (h | h) <;> simp [StorageService.getScannedItems, h]

/-- Witness for C8: an absent lists record and a corrupt ledger record both
read back as empty. -/
theorem C8_reads_degrade_witness :
    StorageService.getInventoryLists emptyStore = [] ∧
    StorageService.getScannedItems
      { emptyStore with scannedItems := fun _ => Cell.corrupt } "L1" = [] := by
  refine ⟨(C8_reads_degrade emptyStore "L1").1 (Or.inl rfl), ?_⟩
  exact (C8_reads_degrade
    { emptyStore with scannedItems := fun _ => Cell.corrupt } "L1").2
    (Or.inr rfl)
